import Mathlib

/-!
Shallow embedding of the `one-promise` tracker (`src/index.ts`).

The source exports `onePromise`, which closes over a mutable slot
`current : PromiseRef | null` and returns an async function `next`.  The body
of `next` is straight-line synchronous code except at two suspension points:
`await promise` and the `queueMicrotask` deferrals of `onChangeIsPending`.
We model it as a deterministic small-step machine: each event below is one of
the synchronous blocks of the source, and a trace (a `List Event`) is one
possible interleaving of those blocks under the single-threaded cooperative
scheduling of the host.  Running a trace is a fold of the step function.

The purely value-level tail of `next` (the `catch` / `onFulfilled` /
`onRejected` dispatch) is modelled separately as the pure function
`finishNext`, and the `typeof valueArg === "function"` dispatch as
`resolveArg`.
-/

namespace OnePromise

/-- Abort reason: the source always aborts with `new OnePromiseAbortError()`. -/
inductive AbortReason where
  | onePromiseAbortError
deriving DecidableEq, Repr

/-- Model of an `AbortController` together with the state of its `AbortSignal`.
`id` models JavaScript object identity (allocation order), so that "the same
signal object" is expressible. -/
structure Ctrl where
  id : Nat
  aborted : Bool
  reason : Option AbortReason
deriving DecidableEq, Repr

/-- Model of the source's `PromiseRef`: `{ isCurrent, abortController }`.
`inFlight` is a ghost field of the model: it is `true` from the moment the
record is installed by `next`'s synchronous prefix until the `await promise`
of that call resumes (the settle event); it only guards which settle events
are meaningful and never influences the translated code paths. -/
structure PromiseRef where
  isCurrent : Bool
  abortController : Option Ctrl
  inFlight : Bool
deriving DecidableEq, Repr

instance : Inhabited PromiseRef := ⟨⟨false, none, false⟩⟩

/-- The whole observable state: the closure state of `onePromise` (`current`),
the allocated records (`recs` below `nRecs`; everything above is `default`),
the queue of `queueMicrotask`-deferred `onChangeIsPending` arguments
(`microtasks`), the log of arguments actually delivered to `onChangeIsPending`
(`notified`), the count of exceptions the pending callback threw into the host
(`unhandled`), the log of completion-callback invocations as pairs
`(record id, isCurrent argument)` (`cbLog`), and the number of
`AbortController` allocations (`ctrlCount`). -/
structure TrackerState where
  current : Option Nat
  recs : Nat → PromiseRef
  nRecs : Nat
  microtasks : List Bool
  notified : List Bool
  unhandled : Nat
  cbLog : List (Nat × Bool)
  ctrlCount : Nat

/-- State right after `onePromise(...)` returns: `current = null`, nothing
allocated, nothing queued. -/
def initState : TrackerState :=
  { current := none, recs := fun _ => default, nRecs := 0, microtasks := [],
    notified := [], unhandled := 0, cbLog := [], ctrlCount := 0 }

/-- `controller.abort(new OnePromiseAbortError())`: a DOM `AbortController`
only records the first abort reason, so aborting an already-aborted controller
is a no-op. -/
def abortWith (c : Ctrl) : Ctrl :=
  if c.aborted then c else { c with aborted := true, reason := some .onePromiseAbortError }

/-- The supersession block applied to `prev`:
`prev.isCurrent = false; prev.abortController?.abort(new OnePromiseAbortError())`. -/
def supersede (r : PromiseRef) : PromiseRef :=
  { r with isCurrent := false, abortController := r.abortController.map abortWith }

/-- Synchronous prefix of `next` (up to `await promise`) for a source that does
not throw synchronously:
`const thisRef = { isCurrent: true, abortController: null };`
`const prev = current; current = thisRef;`
`if (prev) { prev.isCurrent = false; prev.abortController?.abort(...); }`
`else { queueMicrotask(() => onChangeIsPending?.(true)); }`
The fresh record gets id `nRecs`. -/
def nextSync (s : TrackerState) : TrackerState :=
  match s.current with
  | some p =>
    { s with
        recs := Function.update (Function.update s.recs p (supersede (s.recs p))) s.nRecs
          ⟨true, none, true⟩,
        nRecs := s.nRecs + 1,
        current := some s.nRecs }
  | none =>
    { s with
        recs := Function.update s.recs s.nRecs ⟨true, none, true⟩,
        nRecs := s.nRecs + 1,
        current := some s.nRecs,
        microtasks := s.microtasks ++ [true] }

/-- The synchronous prefix of `next` when the first argument is a factory that
throws synchronously.  In the source the factory is invoked on the line
`const promise = typeof valueArg === "function" ? valueArg(nextContext(thisRef)) : valueArg;`,
which runs *before* `const prev = current; current = thisRef;`.  A synchronous
throw therefore aborts the body there: `thisRef` has been allocated (and was
visible to the factory through `nextContext`), but the slot swap, supersession
and `queueMicrotask` never run, and `await promise` is never reached (the
record is allocated with the ghost `inFlight` already `false`). -/
def nextSyncThrow (s : TrackerState) : TrackerState :=
  { s with
      recs := Function.update s.recs s.nRecs ⟨true, none, false⟩,
      nRecs := s.nRecs + 1 }

/-- One call of `next` with a factory argument, up to the first suspension
point.  `factoryRun` is the outcome of invoking the factory synchronously:
`.ok` means it returned (a value or promise) and the normal prefix `nextSync`
runs; `.error e` means it threw `e`.  Because `next` is declared `async`, a
synchronous throw in its body never escapes the call — by JavaScript
async-function semantics it becomes the rejection of the returned promise,
which the second component reports (`some e` = the returned promise is already
rejected with `e`). -/
def nextSyncFactory (s : TrackerState) (factoryRun : Except Nat Unit) :
    TrackerState × Option Nat :=
  match factoryRun with
  | .error e => (nextSyncThrow s, some e)
  | .ok _ => (nextSync s, none)

/-- The `finally` block that runs when `await promise` resumes for record
`rid`:
`if (thisRef.isCurrent) { current = null; queueMicrotask(() => onChangeIsPending?.(false)); }`. -/
def settleFinally (s : TrackerState) (rid : Nat) : TrackerState :=
  if (s.recs rid).isCurrent then
    { s with current := none, microtasks := s.microtasks ++ [false] }
  else s

/-- Resumption of `next` for record `rid` when its awaited promise settles:
first the `finally` block (`settleFinally`), then the invocation of the
completion callback (`onRejected` on rejection, `onFulfilled` on fulfilment)
with `thisRef.isCurrent` as its second argument — logged in `cbLog`.  The
ghost `inFlight` is cleared.  The event is a no-op unless `rid` is an
allocated record whose awaited promise is still outstanding. -/
def settleOp (s : TrackerState) (rid : Nat) : TrackerState :=
  if rid < s.nRecs ∧ (s.recs rid).inFlight = true then
    let s1 := settleFinally s rid
    { s1 with
        recs := Function.update s1.recs rid { s1.recs rid with inFlight := false },
        cbLog := s1.cbLog ++ [(rid, (s.recs rid).isCurrent)] }
  else s

/-- The `get signal()` getter of `nextContext(ref)`:
`if (!ref.abortController) { ref.abortController = new AbortController();`
`  if (!ref.isCurrent) { ref.abortController.abort(new OnePromiseAbortError()); } }`
`return ref.abortController.signal;`
Returns the updated state and the controller/signal handed back. -/
def signalGet (s : TrackerState) (rid : Nat) : TrackerState × Ctrl :=
  match (s.recs rid).abortController with
  | some c => (s, c)
  | none =>
    let created : Ctrl := { id := s.ctrlCount, aborted := false, reason := none }
    let c := if (s.recs rid).isCurrent then created else abortWith created
    ({ s with
        recs := Function.update s.recs rid { s.recs rid with abortController := some c },
        ctrlCount := s.ctrlCount + 1 }, c)

/-- The host drains one queued microtask: `onChangeIsPending` is invoked with
the queued boolean (logged in `notified`).  `throws` says whether this
particular invocation of the user-supplied callback throws; the microtask runs
detached from every `next` call, so by host semantics a throw surfaces only as
an unhandled exception of the environment (counted in `unhandled`). -/
def microtaskRun (s : TrackerState) (throws : Bool) : TrackerState :=
  match s.microtasks with
  | [] => s
  | b :: rest =>
    { s with microtasks := rest, notified := s.notified ++ [b],
             unhandled := if throws then s.unhandled + 1 else s.unhandled }

/-- One synchronous block of the source, as schedulable by the host. -/
inductive Event where
  | callNext
  | callNextThrowFactory
  | settle (rid : Nat)
  | runTask (throws : Bool)
  | getSignal (rid : Nat)
deriving DecidableEq, Repr

/-- Deterministic step function: dispatch an event to the translated block.
A `getSignal` for a record that was never allocated cannot occur (the context
object only ever reaches the factory of its own record), so it is a no-op. -/
def step (s : TrackerState) : Event → TrackerState
  | .callNext => nextSync s
  | .callNextThrowFactory => nextSyncThrow s
  | .settle rid => settleOp s rid
  | .runTask throws => microtaskRun s throws
  | .getSignal rid => if rid < s.nRecs then (signalGet s rid).1 else s

/-- Run a trace from an arbitrary state. -/
def runFrom (s : TrackerState) (es : List Event) : TrackerState :=
  es.foldl step s

/-- Run a trace from the freshly constructed tracker. -/
def run (es : List Event) : TrackerState :=
  runFrom initState es

/-- The pending-state edge observable across one step: the spec calls an
operation "in flight" exactly when the tracker's slot is occupied (§3: "the
slot is empty, meaning no operation is in flight"), so a `none → some`
occupancy change is the zero-to-one transition and `some → none` the
one-to-zero transition. -/
def occEdge (b a : Option Nat) : List Bool :=
  match b, a with
  | none, some _ => [true]
  | some _, none => [false]
  | _, _ => []

/-- The sequence of pending-state transition edges along a trace. -/
def edgesAux : TrackerState → List Event → List Bool
  | _, [] => []
  | s, e :: es => occEdge s.current (step s e).current ++ edgesAux (step s e) es

/-- Transition edges of a trace run from the initial state. -/
def edges (es : List Event) : List Bool :=
  edgesAux initState es

/-- Whether the event is a call of the `next` function. -/
def Event.isCall : Event → Bool
  | .callNext => true
  | .callNextThrowFactory => true
  | _ => false

/-- The same schedule with a pending callback that never throws: only the
`throws` flag of microtask deliveries is cleared, nothing else of the
interleaving changes. -/
def calm : Event → Event
  | .runTask _ => .runTask false
  | e => e

/-- A state with the host's unhandled-exception count erased; two states with
equal `quiet` images agree on every observable of the tracker itself. -/
def quiet (s : TrackerState) : TrackerState :=
  { s with unhandled := 0 }

/-- The completion path of `next` once `await promise` has resumed, translated
from the source's control flow:
`catch (err) { if (!onRejected) { throw err; } return await onRejected(err, thisRef.isCurrent); }`
`if (!onFulfilled) { return value; } return await onFulfilled(value, thisRef.isCurrent);`
The `try`/`catch` encloses only `await promise`, so only the awaited promise's
rejection reaches `onRejected`; anything a callback itself throws leaves the
async function as the rejection of the promise `next` returned.  `res` is the
settlement of the awaited promise, `isCur` the record's `isCurrent` flag, and
a callback's own outcome is an `Except` (`.error` = it threw).  The second
component reports whether `onRejected` was invoked.  Values and reasons are
drawn from `Nat` as an arbitrary value domain. -/
def finishNext (res : Except Nat Nat) (isCur : Bool)
    (onFulfilled : Option (Nat → Bool → Except Nat Nat))
    (onRejected : Option (Nat → Bool → Except Nat Nat)) :
    Except Nat Nat × Bool :=
  match res with
  | .error err =>
    match onRejected with
    | none => (.error err, false)
    | some f => (f err isCur, true)
  | .ok value =>
    match onFulfilled with
    | none => (.ok value, false)
    | some f => (f value isCur, false)

/-- A JavaScript value as classified by the first argument position of `next`:
a plain non-function value, a non-function thenable, or a function (identified
by an id).  `typeof` of the first two is not `"function"`. -/
inductive JSArg where
  | value (v : Nat)
  | promiseLike (p : Nat)
  | func (f : Nat)
deriving DecidableEq, Repr

/-- The `typeof valueArg === "function"` test of the source. -/
def typeofIsFunction : JSArg → Bool
  | .func _ => true
  | _ => false

/-- What `next` goes on to await: either the argument itself, tracked as-is,
or — when the argument was invoked as a factory with the cancellation
context — whatever that invocation produced (`invoked f` records that function
`f` was called). -/
inductive TrackedSource where
  | tracked (a : JSArg)
  | invoked (f : Nat)
deriving DecidableEq, Repr

/-- The dispatch
`typeof valueArg === "function" ? valueArg(nextContext(thisRef)) : valueArg`:
matching on the `func` constructor is exactly the `typeof === "function"`
test, so every function is invoked as a factory and everything else is
tracked unchanged. -/
def resolveArg : JSArg → TrackedSource
  | .func f => .invoked f
  | a => .tracked a

/-- Reachable-state invariant of the tracker: the slot points at an allocated
record that is current and in flight; conversely an in-flight record that is
still current is the slot's record; unallocated ids hold the default record. -/
def Inv (s : TrackerState) : Prop :=
  (∀ rid, s.current = some rid →
      rid < s.nRecs ∧ (s.recs rid).isCurrent = true ∧ (s.recs rid).inFlight = true) ∧
  (∀ rid, rid < s.nRecs → (s.recs rid).isCurrent = true → (s.recs rid).inFlight = true →
      s.current = some rid) ∧
  (∀ rid, ¬ rid < s.nRecs → s.recs rid = default)

/-- State shape while only the first of the two scenario calls has happened:
record 0 is the sole record, current and in flight, and no completion
callback has run. -/
def OneCallShape (s : TrackerState) : Prop :=
  s.current = some 0 ∧ s.nRecs = 1 ∧ (s.recs 0).isCurrent = true ∧
    (s.recs 0).inFlight = true ∧ s.cbLog = []

/-- State shape after the second scenario call: record 0 is superseded,
record 1 current, and every completion callback either ran for record 0 with
`isCurrent = false` or for record 1 with `isCurrent = true`. -/
def TwoCallShape (s : TrackerState) : Prop :=
  (s.recs 0).isCurrent = false ∧ (s.recs 1).isCurrent = true ∧
    (∀ b, (0, b) ∈ s.cbLog → b = false) ∧ (∀ b, (1, b) ∈ s.cbLog → b = true)

lemma inv_init : Inv initState := by
  refine ⟨?_, ?_, ?_⟩ <;> intro rid <;> simp [initState]

lemma inv_step (s : TrackerState) (e : Event) (h : Inv s) : Inv (step s e) := by
  obtain ⟨h1, h2, h3⟩ := h
  cases e with
  | callNext =>
    rcases hc : s.current with _ | p
    · refine ⟨?_, ?_, ?_⟩
      · intro rid heq
        simp only [step, nextSync, hc] at heq ⊢
        cases heq
        simp [Function.update_same]
      · intro rid hlt hcur hfl
        simp only [step, nextSync, hc] at hlt hcur hfl ⊢
        by_cases hr : rid = s.nRecs
        · simp [hr]
        · rw [Function.update_noteq hr] at hcur hfl
          have : s.current = some rid := h2 rid (by omega) hcur hfl
          rw [hc] at this
          exact absurd this (by simp)
      · intro rid hge
        simp only [step, nextSync, hc] at hge ⊢
        rw [Function.update_noteq (by omega)]
        exact h3 rid (by omega)
    · obtain ⟨hp, hpc, hpf⟩ := h1 p hc
      refine ⟨?_, ?_, ?_⟩
      · intro rid heq
        simp only [step, nextSync, hc] at heq ⊢
        cases heq
        simp [Function.update_same]
      · intro rid hlt hcur hfl
        simp only [step, nextSync, hc] at hlt hcur hfl ⊢
        by_cases hr : rid = s.nRecs
        · simp [hr]
        · rw [Function.update_noteq hr] at hcur hfl
          by_cases hrp : rid = p
          · subst hrp
            rw [Function.update_same] at hcur
            simp [supersede] at hcur
          · rw [Function.update_noteq hrp] at hcur hfl
            have : s.current = some rid := h2 rid (by omega) hcur hfl
            rw [hc] at this
            cases this
            exact absurd rfl hrp
      · intro rid hge
        simp only [step, nextSync, hc] at hge ⊢
        rw [Function.update_noteq (by omega), Function.update_noteq (by omega)]
        exact h3 rid (by omega)
  | callNextThrowFactory =>
    refine ⟨?_, ?_, ?_⟩
    · intro rid heq
      simp only [step, nextSyncThrow] at heq ⊢
      obtain ⟨hlt, hcur, hfl⟩ := h1 rid heq
      rw [Function.update_noteq (by omega)]
      exact ⟨by omega, hcur, hfl⟩
    · intro rid hlt hcur hfl
      simp only [step, nextSyncThrow] at hlt hcur hfl ⊢
      by_cases hr : rid = s.nRecs
      · subst hr
        rw [Function.update_same] at hfl
        exact absurd hfl (by simp)
      · rw [Function.update_noteq hr] at hcur hfl
        exact h2 rid (by omega) hcur hfl
    · intro rid hge
      simp only [step, nextSyncThrow] at hge ⊢
      rw [Function.update_noteq (by omega)]
      exact h3 rid (by omega)
  | settle rid =>
    by_cases hg : rid < s.nRecs ∧ (s.recs rid).inFlight = true
    · obtain ⟨hrn, hfl⟩ := hg
      by_cases hcur : (s.recs rid).isCurrent = true
      · have hslot : s.current = some rid := h2 rid hrn hcur hfl
        refine ⟨?_, ?_, ?_⟩
        · intro q heq
          simp only [step, settleOp, if_pos (And.intro hrn hfl), settleFinally,
            if_pos hcur] at heq
          exact absurd heq (by simp)
        · intro q hlt hqc hqf
          simp only [step, settleOp, if_pos (And.intro hrn hfl), settleFinally,
            if_pos hcur] at hlt hqc hqf ⊢
          by_cases hq : q = rid
          · subst hq
            rw [Function.update_same] at hqf
            exact absurd hqf (by simp)
          · rw [Function.update_noteq hq] at hqc hqf
            have : s.current = some q := h2 q (by omega) hqc hqf
            rw [hslot] at this
            cases this
            exact absurd rfl hq
        · intro q hge
          simp only [step, settleOp, if_pos (And.intro hrn hfl), settleFinally,
            if_pos hcur] at hge ⊢
          rw [Function.update_noteq (by omega)]
          exact h3 q (by omega)
      · refine ⟨?_, ?_, ?_⟩
        · intro q heq
          simp only [step, settleOp, if_pos (And.intro hrn hfl), settleFinally,
            if_neg hcur] at heq ⊢
          obtain ⟨hq, hqc, hqf⟩ := h1 q heq
          have hne : q ≠ rid := by
            intro hcontra
            subst hcontra
            exact hcur hqc
          rw [Function.update_noteq hne]
          exact ⟨hq, hqc, hqf⟩
        · intro q hlt hqc hqf
          simp only [step, settleOp, if_pos (And.intro hrn hfl), settleFinally,
            if_neg hcur] at hlt hqc hqf ⊢
          by_cases hq : q = rid
          · subst hq
            rw [Function.update_same] at hqf
            exact absurd hqf (by simp)
          · rw [Function.update_noteq hq] at hqc hqf
            exact h2 q (by omega) hqc hqf
        · intro q hge
          simp only [step, settleOp, if_pos (And.intro hrn hfl), settleFinally,
            if_neg hcur] at hge ⊢
          rw [Function.update_noteq (by omega)]
          exact h3 q (by omega)
    · simp only [step, settleOp, if_neg hg]
      exact ⟨h1, h2, h3⟩
  | runTask throws =>
    rcases hm : s.microtasks with _ | ⟨b, rest⟩ <;>
      simp only [step, microtaskRun, hm] <;>
      exact ⟨h1, h2, h3⟩
  | getSignal rid =>
    by_cases hr : rid < s.nRecs
    · rcases hac : (s.recs rid).abortController with _ | c
      · refine ⟨?_, ?_, ?_⟩
        · intro q heq
          simp only [step, if_pos hr, signalGet, hac] at heq ⊢
          obtain ⟨hq, hqc, hqf⟩ := h1 q heq
          refine ⟨hq, ?_, ?_⟩ <;> by_cases hqr : q = rid
          · subst hqr; rw [Function.update_same]; exact hqc
          · rw [Function.update_noteq hqr]; exact hqc
          · subst hqr; rw [Function.update_same]; exact hqf
          · rw [Function.update_noteq hqr]; exact hqf
        · intro q hlt hqc hqf
          simp only [step, if_pos hr, signalGet, hac] at hlt hqc hqf ⊢
          by_cases hqr : q = rid
          · subst hqr
            rw [Function.update_same] at hqc hqf
            exact h2 q hr hqc hqf
          · rw [Function.update_noteq hqr] at hqc hqf
            exact h2 q hlt hqc hqf
        · intro q hge
          simp only [step, if_pos hr, signalGet, hac] at hge ⊢
          rw [Function.update_noteq (by omega)]
          exact h3 q hge
      · simp only [step, if_pos hr, signalGet, hac]
        exact ⟨h1, h2, h3⟩
    · simp only [step, if_neg hr]
      exact ⟨h1, h2, h3⟩

lemma inv_runFrom (es : List Event) : ∀ s, Inv s → Inv (runFrom s es) := by
  induction es with
  | nil => intro s h; exact h
  | cons e es ih =>
    intro s h
    exact ih (step s e) (inv_step s e h)

lemma inv_run (es : List Event) : Inv (run es) :=
  inv_runFrom es initState inv_init

lemma occEdge_refl (x : Option Nat) : occEdge x x = [] := by
  cases x <;> rfl

lemma settleFinally_recs (s : TrackerState) (rid : Nat) :
    (settleFinally s rid).recs = s.recs := by
  unfold settleFinally
  split <;> rfl

lemma settleFinally_cbLog (s : TrackerState) (rid : Nat) :
    (settleFinally s rid).cbLog = s.cbLog := by
  unfold settleFinally
  split <;> rfl

lemma settleFinally_nRecs (s : TrackerState) (rid : Nat) :
    (settleFinally s rid).nRecs = s.nRecs := by
  unfold settleFinally
  split <;> rfl

lemma settleFinally_notified (s : TrackerState) (rid : Nat) :
    (settleFinally s rid).notified = s.notified := by
  unfold settleFinally
  split <;> rfl

/-- Each synchronous block enqueues pending notifications exactly at the
occupancy edges of the tracker slot: delivered plus still-queued notifications
grow by precisely the edge the step produces. -/
lemma step_notif (s : TrackerState) (e : Event) (h : Inv s) :
    (step s e).notified ++ (step s e).microtasks =
      (s.notified ++ s.microtasks) ++ occEdge s.current (step s e).current := by
  obtain ⟨h1, h2, h3⟩ := h
  cases e with
  | callNext =>
    rcases hc : s.current with _ | p
    · simp [step, nextSync, hc, occEdge, List.append_assoc]
    · simp [step, nextSync, hc, occEdge]
  | callNextThrowFactory =>
    simp [step, nextSyncThrow, occEdge_refl]
  | settle rid =>
    by_cases hg : rid < s.nRecs ∧ (s.recs rid).inFlight = true
    · by_cases hcur : (s.recs rid).isCurrent = true
      · have hslot : s.current = some rid := h2 rid hg.1 hcur hg.2
        simp [step, settleOp, if_pos hg, settleFinally, if_pos hcur, hslot, occEdge,
          List.append_assoc]
      · simp [step, settleOp, if_pos hg, settleFinally, if_neg hcur, occEdge_refl]
    · simp [step, settleOp, if_neg hg, occEdge_refl]
  | runTask throws =>
    rcases hm : s.microtasks with _ | ⟨b, rest⟩
    · simp [step, microtaskRun, hm, occEdge_refl]
    · simp [step, microtaskRun, hm, occEdge_refl]
  | getSignal rid =>
    by_cases hr : rid < s.nRecs
    · rcases hac : (s.recs rid).abortController with _ | c
      · simp [step, if_pos hr, signalGet, hac, occEdge_refl]
      · simp [step, if_pos hr, signalGet, hac, occEdge_refl]
    · simp [step, if_neg hr, occEdge_refl]

lemma runFrom_notif (es : List Event) : ∀ s, Inv s →
    (runFrom s es).notified ++ (runFrom s es).microtasks =
      (s.notified ++ s.microtasks) ++ edgesAux s es := by
  induction es with
  | nil => intro s _; simp [runFrom, edgesAux]
  | cons e es ih =>
    intro s h
    have hstep := step_notif s e h
    have htail := ih (step s e) (inv_step s e h)
    show (runFrom (step s e) es).notified ++ (runFrom (step s e) es).microtasks = _
    rw [htail, hstep, edgesAux, List.append_assoc]

/-- No block other than the synchronous prefix of a `next` call ever changes
any record's `isCurrent` flag. -/
lemma step_isCurrent_nonCall (s : TrackerState) (e : Event) (rid : Nat)
    (h : e.isCall = false) :
    ((step s e).recs rid).isCurrent = (s.recs rid).isCurrent := by
  cases e with
  | callNext => simp [Event.isCall] at h
  | callNextThrowFactory => simp [Event.isCall] at h
  | settle r =>
    by_cases hg : r < s.nRecs ∧ (s.recs r).inFlight = true
    · simp only [step, settleOp, if_pos hg, settleFinally_recs]
      by_cases hq : rid = r
      · subst hq
        rw [Function.update_same]
      · rw [Function.update_noteq hq]
    · simp [step, settleOp, if_neg hg]
  | runTask throws =>
    rcases hm : s.microtasks with _ | ⟨b, rest⟩ <;> simp [step, microtaskRun, hm]
  | getSignal r =>
    by_cases hr : r < s.nRecs
    · rcases hac : (s.recs r).abortController with _ | c
      · simp only [step, if_pos hr, signalGet, hac]
        by_cases hq : rid = r
        · subst hq
          rw [Function.update_same]
        · rw [Function.update_noteq hq]
      · simp [step, if_pos hr, signalGet, hac]
    · simp [step, if_neg hr]

lemma eq_set_unhandled_of_quiet (s s' : TrackerState) (h : quiet s' = quiet s) :
    s' = { s with unhandled := s'.unhandled } := by
  cases s
  cases s'
  simp_all [quiet]

/-- No synchronous block of the tracker reads the host's unhandled-exception
count. -/
lemma step_quiet_set (s : TrackerState) (u : Nat) (e : Event) :
    quiet (step { s with unhandled := u } e) = quiet (step s e) := by
  cases e with
  | callNext =>
    rcases hc : s.current with _ | p <;> simp [step, nextSync, quiet, hc]
  | callNextThrowFactory =>
    simp [step, nextSyncThrow, quiet]
  | settle rid =>
    by_cases hg : rid < s.nRecs ∧ (s.recs rid).inFlight = true
    · by_cases hcur : (s.recs rid).isCurrent = true
      · simp [step, settleOp, settleFinally, hg, hcur, quiet]
      · simp [step, settleOp, settleFinally, hg, hcur, quiet]
    · simp [step, settleOp, hg, quiet]
  | runTask throws =>
    rcases hm : s.microtasks with _ | ⟨b, rest⟩ <;>
      simp [step, microtaskRun, hm, quiet]
  | getSignal rid =>
    by_cases hr : rid < s.nRecs
    · rcases hac : (s.recs rid).abortController with _ | c <;>
        simp [step, signalGet, hr, hac, quiet]
    · simp [step, hr, quiet]

/-- Clearing the `throws` flag of a microtask delivery changes nothing the
tracker can observe. -/
lemma step_calm_quiet (s : TrackerState) (e : Event) :
    quiet (step s (calm e)) = quiet (step s e) := by
  cases e with
  | runTask throws =>
    rcases hm : s.microtasks with _ | ⟨b, rest⟩ <;>
      simp [calm, step, microtaskRun, hm, quiet]
  | callNext => rfl
  | callNextThrowFactory => rfl
  | settle rid => rfl
  | getSignal rid => rfl

/-- With a never-throwing pending callback no step touches the host's
unhandled-exception count. -/
lemma step_calm_unhandled (s : TrackerState) (e : Event) :
    (step s (calm e)).unhandled = s.unhandled := by
  cases e with
  | callNext =>
    rcases hc : s.current with _ | p <;> simp [calm, step, nextSync, hc]
  | callNextThrowFactory =>
    simp [calm, step, nextSyncThrow]
  | settle rid =>
    by_cases hg : rid < s.nRecs ∧ (s.recs rid).inFlight = true
    · by_cases hcur : (s.recs rid).isCurrent = true
      · simp [calm, step, settleOp, settleFinally, hg, hcur]
      · simp [calm, step, settleOp, settleFinally, hg, hcur]
    · simp [calm, step, settleOp, hg]
  | runTask throws =>
    rcases hm : s.microtasks with _ | ⟨b, rest⟩ <;>
      simp [calm, step, microtaskRun, hm]
  | getSignal rid =>
    by_cases hr : rid < s.nRecs
    · rcases hac : (s.recs rid).abortController with _ | c <;>
        simp [calm, step, signalGet, hr, hac]
    · simp [calm, step, hr]

lemma runFrom_calm_quiet (es : List Event) : ∀ s s', quiet s' = quiet s →
    quiet (runFrom s' (es.map calm)) = quiet (runFrom s es) := by
  induction es with
  | nil =>
    intro s s' h
    simpa [runFrom] using h
  | cons e es ih =>
    intro s s' h
    show quiet (runFrom (step s' (calm e)) (es.map calm)) = quiet (runFrom (step s e) es)
    apply ih
    rw [eq_set_unhandled_of_quiet s s' h, step_quiet_set]
    exact step_calm_quiet s e

lemma runFrom_calm_unhandled (es : List Event) : ∀ s,
    (runFrom s (es.map calm)).unhandled = s.unhandled := by
  induction es with
  | nil => intro s; rfl
  | cons e es ih =>
    intro s
    show (runFrom (step s (calm e)) (es.map calm)).unhandled = s.unhandled
    rw [ih, step_calm_unhandled]

/-- Outside of `next` calls, a completion-callback log entry is either an old
one or records the logged record's `isCurrent` flag as it stands. -/
lemma step_cbLog_nonCall (s : TrackerState) (e : Event) (p : Nat) (b : Bool)
    (h : e.isCall = false) (hm : (p, b) ∈ (step s e).cbLog) :
    (p, b) ∈ s.cbLog ∨ b = (s.recs p).isCurrent := by
  cases e with
  | callNext => simp [Event.isCall] at h
  | callNextThrowFactory => simp [Event.isCall] at h
  | settle r =>
    by_cases hg : r < s.nRecs ∧ (s.recs r).inFlight = true
    · simp only [step, settleOp, if_pos hg, settleFinally_cbLog, List.mem_append,
        List.mem_singleton] at hm
      rcases hm with hm | hm
      · exact Or.inl hm
      · have hm' : p = r ∧ b = (s.recs r).isCurrent := by
          simpa [Prod.ext_iff] using hm
        obtain ⟨hp, hb⟩ := hm'
        subst hp
        exact Or.inr hb
    · simp only [step, settleOp, if_neg hg] at hm
      exact Or.inl hm
  | runTask throws =>
    rcases hm2 : s.microtasks with _ | ⟨b2, rest⟩ <;>
      simp only [step, microtaskRun, hm2] at hm <;> exact Or.inl hm
  | getSignal r =>
    by_cases hr : r < s.nRecs
    · rcases hac : (s.recs r).abortController with _ | c <;>
        simp only [step, if_pos hr, signalGet, hac] at hm <;> exact Or.inl hm
    · simp only [step, if_neg hr] at hm
      exact Or.inl hm

lemma oneCallShape_step (s : TrackerState) (e : Event) (h : OneCallShape s)
    (hc : e.isCall = false) (hs : e ≠ Event.settle 0) : OneCallShape (step s e) := by
  obtain ⟨k1, k2, k3, k4, k5⟩ := h
  cases e with
  | callNext => simp [Event.isCall] at hc
  | callNextThrowFactory => simp [Event.isCall] at hc
  | settle r =>
    have hr : r ≠ 0 := fun h0 => hs (h0 ▸ rfl)
    have hg : ¬ (r < s.nRecs ∧ (s.recs r).inFlight = true) := by
      rintro ⟨hlt, _⟩
      rw [k2] at hlt
      omega
    simpa [step, settleOp, hg] using ⟨k1, k2, k3, k4, k5⟩
  | runTask throws =>
    rcases hm : s.microtasks with _ | ⟨b, rest⟩ <;>
      simpa [step, microtaskRun, hm] using ⟨k1, k2, k3, k4, k5⟩
  | getSignal r =>
    by_cases hr : r < s.nRecs
    · rcases hac : (s.recs r).abortController with _ | c
      · refine ⟨?_, ?_, ?_, ?_, ?_⟩ <;> simp only [step, if_pos hr, signalGet, hac]
        · exact k1
        · exact k2
        · by_cases h0 : (0 : Nat) = r
          · subst h0
            rw [Function.update_same]
            exact k3
          · rw [Function.update_noteq h0]
            exact k3
        · by_cases h0 : (0 : Nat) = r
          · subst h0
            rw [Function.update_same]
            exact k4
          · rw [Function.update_noteq h0]
            exact k4
        · exact k5
      · simpa [step, if_pos hr, signalGet, hac] using ⟨k1, k2, k3, k4, k5⟩
    · simpa [step, if_neg hr] using ⟨k1, k2, k3, k4, k5⟩

lemma oneCallShape_runFrom (es : List Event) : ∀ s, OneCallShape s →
    (∀ e ∈ es, e.isCall = false ∧ e ≠ Event.settle 0) →
    OneCallShape (runFrom s es) := by
  induction es with
  | nil => intro s h _; exact h
  | cons e es ih =>
    intro s h hall
    exact ih (step s e)
      (oneCallShape_step s e h (hall e (by simp)).1 (hall e (by simp)).2)
      (fun e2 he2 => hall e2 (by simp [he2]))

/-- The second `next` call of the scenario supersedes record 0 and installs
record 1 as current. -/
lemma twoCallShape_start (s : TrackerState) (h : OneCallShape s) :
    TwoCallShape (nextSync s) := by
  obtain ⟨k1, k2, k3, k4, k5⟩ := h
  have h01 : (0 : Nat) ≠ s.nRecs := by omega
  have h11 : (1 : Nat) = s.nRecs := by omega
  refine ⟨?_, ?_, ?_, ?_⟩
  · simp only [nextSync, k1]
    rw [Function.update_noteq h01, Function.update_same]
    simp [supersede]
  · simp only [nextSync, k1]
    rw [h11, Function.update_same]
  · intro b hb
    simp only [nextSync, k1, k5] at hb
    cases hb
  · intro b hb
    simp only [nextSync, k1, k5] at hb
    cases hb

lemma twoCallShape_step (s : TrackerState) (e : Event) (h : TwoCallShape s)
    (hc : e.isCall = false) : TwoCallShape (step s e) := by
  obtain ⟨j1, j2, j3, j4⟩ := h
  refine ⟨?_, ?_, ?_, ?_⟩
  · rw [step_isCurrent_nonCall s e 0 hc]
    exact j1
  · rw [step_isCurrent_nonCall s e 1 hc]
    exact j2
  · intro b hb
    rcases step_cbLog_nonCall s e 0 b hc hb with hb' | hb'
    · exact j3 b hb'
    · rw [hb']
      exact j1
  · intro b hb
    rcases step_cbLog_nonCall s e 1 b hc hb with hb' | hb'
    · exact j4 b hb'
    · rw [hb']
      exact j2

lemma twoCallShape_runFrom (es : List Event) : ∀ s, TwoCallShape s →
    (∀ e ∈ es, e.isCall = false) → TwoCallShape (runFrom s es) := by
  induction es with
  | nil => intro s h _; exact h
  | cons e es ih =>
    intro s h hall
    exact ih (step s e) (twoCallShape_step s e h (hall e (by simp)))
      (fun e2 he2 => hall e2 (by simp [he2]))

/-- C1: along every interleaving, the pending-notification callback
`onChangeIsPending` is invoked with `true` exactly once per transition from
zero to one in-flight operations (slot `none → some`) and with `false` exactly
once per transition from one to zero (slot `some → none`): the delivered
notifications followed by the still-queued ones are exactly the sequence of
transition edges, with no redundant firings.  In particular the burst
`next(a)`, `next(b)` before `a` settles, then awaiting `b` delivers exactly
`[true, false]` — also when `a` settles afterwards. -/
theorem claim_C1_pending_notification_edges :
    (∀ es : List Event,
      (run es).notified ++ (run es).microtasks = edges es) ∧
    (run [Event.callNext, Event.callNext, Event.settle 1,
        Event.runTask false, Event.runTask false]).notified = [true, false] ∧
    (run [Event.callNext, Event.callNext, Event.settle 1, Event.runTask false,
        Event.runTask false, Event.settle 0,
        Event.runTask false]).notified = [true, false] := by
  refine ⟨?_, by decide, by decide⟩
  intro es
  have h := runFrom_notif es initState inv_init
  simpa [run, initState, edges] using h

/-- C2: for `next(a)` then `next(b)` issued before `a` settles, with no third
call interleaving: whatever else happens (settlements in either order,
notification deliveries, signal accesses), every completion callback of `a`
(record 0) receives `isCurrent = false` and every completion callback of `b`
(record 1) receives `isCurrent = true`. -/
theorem claim_C2_isCurrent_flags :
    ∀ (L1 L2 : List Event),
      (∀ e ∈ L1, e.isCall = false) → Event.settle 0 ∉ L1 →
      (∀ e ∈ L2, e.isCall = false) →
      (∀ b, (0, b) ∈ (run ([Event.callNext] ++ L1 ++ [Event.callNext] ++ L2)).cbLog →
        b = false) ∧
      (∀ b, (1, b) ∈ (run ([Event.callNext] ++ L1 ++ [Event.callNext] ++ L2)).cbLog →
        b = true) := by
  intro L1 L2 hL1 hs0 hL2
  have hrun : run ([Event.callNext] ++ L1 ++ [Event.callNext] ++ L2)
      = runFrom (nextSync (runFrom (nextSync initState) L1)) L2 := by
    simp [run, runFrom, List.foldl_append, step]
  have h1 : OneCallShape (nextSync initState) :=
    ⟨by decide, by decide, by decide, by decide, by decide⟩
  have h2 : OneCallShape (runFrom (nextSync initState) L1) :=
    oneCallShape_runFrom L1 (nextSync initState) h1
      (fun e he => ⟨hL1 e he, fun hse => hs0 (hse ▸ he)⟩)
  have h3 : TwoCallShape (nextSync (runFrom (nextSync initState) L1)) :=
    twoCallShape_start _ h2
  have h4 : TwoCallShape (runFrom (nextSync (runFrom (nextSync initState) L1)) L2) :=
    twoCallShape_runFrom L2 _ h3 hL2
  rw [hrun]
  exact ⟨h4.2.2.1, h4.2.2.2⟩

/-- C2 witness: in the concrete burst where both records then settle in
order, `a`'s callback ran with `false`, `b`'s with `true`, and by the theorem
`a`'s callback can never have received `true`. -/
theorem claim_C2_witness :
    (run [Event.callNext, Event.callNext, Event.settle 0, Event.settle 1]).cbLog
      = [(0, false), (1, true)] ∧
    ((0, true) ∈ (run [Event.callNext, Event.callNext, Event.settle 0,
      Event.settle 1]).cbLog → False) := by
  refine ⟨by decide, fun hmem => ?_⟩
  have h := claim_C2_isCurrent_flags [] [Event.settle 0, Event.settle 1]
    (by decide) (by decide) (by decide)
  exact Bool.noConfusion (h.1 true hmem)

/-- C4: in every reachable state, the slot's record is current and in flight,
an in-flight record that is current is exactly the slot's record (so slot
`none` means no in-flight record is current), and at most one in-flight
record is current.  The supersession of the previous record happens inside
the same synchronous block (`nextSync`) that installs its successor, so no
reachable state has two simultaneously current in-flight records. -/
theorem claim_C4_single_current_record :
    ∀ es : List Event,
      (∀ rid, (run es).current = some rid →
        rid < (run es).nRecs ∧ ((run es).recs rid).isCurrent = true ∧
          ((run es).recs rid).inFlight = true) ∧
      (∀ rid, rid < (run es).nRecs → ((run es).recs rid).isCurrent = true →
        ((run es).recs rid).inFlight = true → (run es).current = some rid) ∧
      (∀ i j, i < (run es).nRecs → j < (run es).nRecs →
        ((run es).recs i).isCurrent = true → ((run es).recs i).inFlight = true →
        ((run es).recs j).isCurrent = true → ((run es).recs j).inFlight = true →
          i = j) := by
  intro es
  obtain ⟨h1, h2, h3⟩ := inv_run es
  refine ⟨h1, h2, ?_⟩
  intro i j hi hj hic hifl hjc hjfl
  exact Option.some.inj ((h2 i hi hic hifl).symm.trans (h2 j hj hjc hjfl))

/-- C4 witness: after one call to `next`, the slot's record 0 is current and
in flight, by the invariant applied to the concrete trace. -/
theorem claim_C4_witness :
    ((run [Event.callNext]).recs 0).isCurrent = true ∧
      ((run [Event.callNext]).recs 0).inFlight = true := by
  have h := (claim_C4_single_current_record [Event.callNext]).1 0 (by decide)
  exact ⟨h.2.1, h.2.2⟩

/-- C5: with both callbacks supplied, a fulfilment always goes to
`onFulfilled` alone: the outcome of `next` is exactly what `onFulfilled`
produced (so a value it throws becomes the rejection handed to the caller),
`onRejected` is not invoked, and this is independent of `onRejected`
altogether; symmetrically, a rejection of the awaited promise goes to
`onRejected` and its outcome (including anything it throws) propagates to the
caller. -/
theorem claim_C5_callback_failure_not_redirected :
    ∀ (v : Nat) (isCur : Bool) (f : Nat → Bool → Except Nat Nat)
      (g : Option (Nat → Bool → Except Nat Nat)),
      finishNext (Except.ok v) isCur (some f) g = (f v isCur, false) ∧
      ∀ (r : Nat) (g2 : Nat → Bool → Except Nat Nat)
        (f2 : Option (Nat → Bool → Except Nat Nat)),
        (finishNext (Except.error r) isCur f2 (some g2)).1 = g2 r isCur :=
  fun _ _ _ _ => ⟨rfl, fun _ _ _ => rfl⟩

/-- C6: a throw from `onChangeIsPending` is invisible to the tracker.  Running
any schedule with a throwing pending callback produces exactly the same slot,
records, queued and delivered notifications, and completion-callback
invocations as the same schedule with a callback that never throws — the two
runs differ at most in the host's unhandled-exception count — and with a
never-throwing callback that count stays zero, so a throw surfaces only as a
host-level unhandled failure. -/
theorem claim_C6_pending_callback_throw_isolated :
    ∀ es : List Event,
      quiet (run (es.map calm)) = quiet (run es) ∧
      (run (es.map calm)).unhandled = 0 ∧
      (run (es.map calm)).cbLog = (run es).cbLog ∧
      (run (es.map calm)).current = (run es).current ∧
      (run (es.map calm)).notified = (run es).notified := by
  intro es
  have hq : quiet (run (es.map calm)) = quiet (run es) :=
    runFrom_calm_quiet es initState initState rfl
  have hcb := congrArg TrackerState.cbLog hq
  have hcu := congrArg TrackerState.current hq
  have hno := congrArg TrackerState.notified hq
  exact ⟨hq, runFrom_calm_unhandled es initState, hcb, hcu, hno⟩

/-- C7: if the cancellation context's `signal` is first accessed (no
controller exists yet) when the owning record is already superseded
(`isCurrent = false`), the getter returns a signal that is already aborted
with the `OnePromiseAbortError` reason, and that aborted controller is what
gets stored on the record. -/
theorem claim_C7_late_signal_pre_aborted :
    ∀ (s : TrackerState) (rid : Nat),
      (s.recs rid).abortController = none →
      (s.recs rid).isCurrent = false →
      (signalGet s rid).2.aborted = true ∧
      (signalGet s rid).2.reason = some AbortReason.onePromiseAbortError ∧
      ((signalGet s rid).1.recs rid).abortController = some (signalGet s rid).2 := by
  intro s rid hac hcur
  simp [signalGet, hac, hcur, abortWith, Function.update_same]

/-- C7 witness: after `next(a)` then `next(b)`, record 0 is superseded with no
controller, and a first `signal` access on it returns an already-aborted
signal with the `OnePromiseAbortError` reason. -/
theorem claim_C7_witness :
    (signalGet (run [Event.callNext, Event.callNext]) 0).2.aborted = true ∧
    (signalGet (run [Event.callNext, Event.callNext]) 0).2.reason =
      some AbortReason.onePromiseAbortError ∧
    ((signalGet (run [Event.callNext, Event.callNext]) 0).1.recs 0).abortController =
      some (signalGet (run [Event.callNext, Event.callNext]) 0).2 :=
  claim_C7_late_signal_pre_aborted (run [Event.callNext, Event.callNext]) 0
    (by decide) (by decide)

/-- C8: the cancellation handle is memoized per record: a second `signal`
access returns the identical controller/signal and leaves the state untouched
(no duplicate controller creation), and a single access allocates at most one
controller. -/
theorem claim_C8_signal_memoized :
    ∀ (s : TrackerState) (rid : Nat),
      (signalGet (signalGet s rid).1 rid).2 = (signalGet s rid).2 ∧
      (signalGet (signalGet s rid).1 rid).1 = (signalGet s rid).1 ∧
      (signalGet s rid).1.ctrlCount ≤ s.ctrlCount + 1 := by
  intro s rid
  rcases hac : (s.recs rid).abortController with _ | c
  · refine ⟨?_, ?_, ?_⟩ <;> simp [signalGet, hac, Function.update_same]
  · refine ⟨?_, ?_, ?_⟩ <;> simp [signalGet, hac]

/-- C9: the first argument of `next` is dispatched on
`typeof valueArg === "function"`: every function value is invoked as a
factory (yielding `invoked`), every non-function is tracked as-is, and no
function value is ever tracked as a plain or promise-like source. -/
theorem claim_C9_functions_always_factories :
    ∀ a : JSArg,
      (typeofIsFunction a = true →
        ∃ f, a = JSArg.func f ∧ resolveArg a = TrackedSource.invoked f) ∧
      (typeofIsFunction a = false → resolveArg a = TrackedSource.tracked a) ∧
      ∀ f, resolveArg a ≠ TrackedSource.tracked (JSArg.func f) := by
  intro a
  cases a <;> simp [typeofIsFunction, resolveArg]

/-- C9 witness: the function argument with id 5 is invoked as a factory. -/
theorem claim_C9_witness :
    resolveArg (JSArg.func 5) = TrackedSource.invoked 5 := by
  obtain ⟨f, hf, h⟩ := (claim_C9_functions_always_factories (JSArg.func 5)).1 rfl
  cases hf
  exact h

/-- C3 counterexample: the claim's bookkeeping part fails on the code.  With
record 0 in flight from a previous `next`, a call whose factory throws `7`
does reject the returned promise with `7`, but it leaves the slot at record 0
and record 0 still current (the claim demands the new record be installed and
record 0 superseded), and from the empty tracker it schedules no pending-true
notification (the claim demands one). -/
theorem claim_C3_counterexample :
    (nextSyncFactory (run [Event.callNext]) (Except.error 7)).2 = some 7 ∧
    (nextSyncFactory (run [Event.callNext]) (Except.error 7)).1.current = some 0 ∧
    ((nextSyncFactory (run [Event.callNext]) (Except.error 7)).1.recs 0).isCurrent
      = true ∧
    (nextSyncFactory initState (Except.error 7)).1.microtasks = [] := by
  decide

/-- C3 amended: a synchronous factory throw becomes the rejection of the
promise `next` returns (it never escapes synchronously), but the bookkeeping
of steps 3-5 is skipped: the slot, the queued and delivered notifications,
and every existing record — in particular a previous in-flight record and its
cancellation handle — are untouched; only a fresh, never-installed record is
allocated. -/
theorem claim_C3_amended_factory_throw :
    ∀ (s : TrackerState) (e : Nat),
      (nextSyncFactory s (Except.error e)).2 = some e ∧
      (nextSyncFactory s (Except.error e)).1.current = s.current ∧
      (nextSyncFactory s (Except.error e)).1.microtasks = s.microtasks ∧
      (nextSyncFactory s (Except.error e)).1.notified = s.notified ∧
      (nextSyncFactory s (Except.error e)).1.nRecs = s.nRecs + 1 ∧
      (nextSyncFactory s (Except.error e)).1.recs s.nRecs
        = ⟨true, none, false⟩ ∧
      ∀ rid, rid ≠ s.nRecs →
        (nextSyncFactory s (Except.error e)).1.recs rid = s.recs rid := by
  intro s e
  refine ⟨rfl, rfl, rfl, rfl, rfl, ?_, ?_⟩
  · simp [nextSyncFactory, nextSyncThrow, Function.update_same]
  · intro rid h
    simp [nextSyncFactory, nextSyncThrow, Function.update_noteq h]

/-- C3 witness: the amended statement at a concrete state — with record 0 in
flight, a factory throw rejects with the thrown value and leaves record 0
untouched. -/
theorem claim_C3_witness :
    (nextSyncFactory (run [Event.callNext]) (Except.error 7)).2 = some 7 ∧
    (nextSyncFactory (run [Event.callNext]) (Except.error 7)).1.recs 0
      = (run [Event.callNext]).recs 0 := by
  have h := claim_C3_amended_factory_throw (run [Event.callNext]) 7
  exact ⟨h.1, h.2.2.2.2.2.2 0 (by decide)⟩

/-- C10: when a record settles while still current, the `finally` block clears
the slot and queues the pending-false notification, and only then is the
completion callback invoked (with `isCurrent = true`): the state the callback
observes already has `current = none` and `false` queued, so callback time is
not pending time, and a reentrant `next` from inside the callback finds the
slot empty and schedules a fresh pending-true notification. -/
theorem claim_C10_finally_before_callbacks :
    ∀ (s : TrackerState) (rid : Nat),
      rid < s.nRecs → (s.recs rid).inFlight = true → (s.recs rid).isCurrent = true →
      (settleFinally s rid).current = none ∧
      (settleFinally s rid).microtasks = s.microtasks ++ [false] ∧
      (settleFinally s rid).cbLog = s.cbLog ∧
      (settleOp s rid).current = none ∧
      (settleOp s rid).microtasks = s.microtasks ++ [false] ∧
      (settleOp s rid).cbLog = s.cbLog ++ [(rid, true)] ∧
      (nextSync (settleOp s rid)).current = some s.nRecs ∧
      (nextSync (settleOp s rid)).microtasks = s.microtasks ++ [false, true] := by
  intro s rid h1 h2 h3
  have hg : rid < s.nRecs ∧ (s.recs rid).inFlight = true := ⟨h1, h2⟩
  have hcur : (settleOp s rid).current = none := by
    simp [settleOp, hg, settleFinally, h3]
  have hmt : (settleOp s rid).microtasks = s.microtasks ++ [false] := by
    simp [settleOp, hg, settleFinally, h3]
  have hnr : (settleOp s rid).nRecs = s.nRecs := by
    simp [settleOp, hg, settleFinally, h3]
  refine ⟨by simp [settleFinally, h3], by simp [settleFinally, h3],
    settleFinally_cbLog s rid, hcur, hmt, ?_, ?_, ?_⟩
  · simp [settleOp, hg, settleFinally, h3]
  · simp [nextSync, hcur, hnr]
  · simp [nextSync, hcur, hmt]

/-- C10 witness: the statement at the concrete state after one `next` call,
settling record 0. -/
theorem claim_C10_witness :
    (settleOp (run [Event.callNext]) 0).current = none ∧
    (settleOp (run [Event.callNext]) 0).cbLog
      = (run [Event.callNext]).cbLog ++ [(0, true)] ∧
    (nextSync (settleOp (run [Event.callNext]) 0)).microtasks
      = (run [Event.callNext]).microtasks ++ [false, true] := by
  have h := claim_C10_finally_before_callbacks (run [Event.callNext]) 0
    (by decide) (by decide) (by decide)
  exact ⟨h.2.2.2.1, h.2.2.2.2.2.1, h.2.2.2.2.2.2.2⟩

end OnePromise
